import Mathlib

/-!
Verification of the hammer code-generation pipeline core.

This development embeds the session-scoped orchestration core of the
repository: the status-store merge-upsert (temporal/shared.go,
SaveResultActivity), the session registry for stateful repository handles
(activities/git_activities.go), the version-control session operations
(services/git_service.go), the relevance-filter parsing
(services, LLMService.EvaluateRelevantFiles) and the orchestrating
workflow CodeGenWorkflow (workflows package).

External collaborators (the OpenAI completion endpoint, the remote git
server, the Temporal dispatch substrate) are modelled as oracles: each
activity invocation that depends on them takes its outcome from an
environment record, while all in-process logic is embedded directly.
-/

/-! ## Definitions -/

/-- A Go error value as surfaced to the Temporal substrate: the message,
whether it was created via temporal.NewNonRetryableApplicationError, and
the application-error type tag when one was attached. -/
structure GoError where
  msg : String
  nonRetryable : Bool
  kind : Option String
deriving Repr, DecidableEq

/-- fmt.Errorf and errors.New produce a plain error: retryable from the
point of view of the Temporal retry policy and carrying no type tag. -/
def goErrorf (msg : String) : GoError := ⟨msg, false, none⟩

/-- temporal.NewNonRetryableApplicationError attaches a type tag and marks
the error non-retryable. -/
def newNonRetryableApplicationError (msg kind : String) : GoError :=
  ⟨msg, true, some kind⟩

/-- temporal/shared.go: ActivityInput, the merge record handed to
SaveResultActivity. All fields are plain Go strings (never nil). -/
structure ActivityInput where
  WorkflowID : String
  Prompt : String
  Plan : String
  StepOutputs : String
  FinalResult : String
  Status : String
  ErrorDetails : String
deriving Repr, DecidableEq

/-- One row of the results table (db/database.go). The TEXT columns
prompt/plan/step_outputs/final_result/error_details are nullable, hence
Option String; status is NOT NULL. Timestamps are immaterial to the
claims and omitted. -/
structure ResultsRow where
  workflow_id : String
  prompt : Option String
  plan : Option String
  step_outputs : Option String
  final_result : Option String
  status : String
  error_details : Option String
deriving Repr, DecidableEq

/-- SQLite COALESCE over two nullable TEXT values: the first operand that
is not NULL. An empty text value is not NULL. -/
def sqlCoalesce (a b : Option String) : Option String :=
  match a with
  | some x => some x
  | none => b

/-- go-sqlite3 binds a Go string parameter as a TEXT value; a Go string is
never bound as NULL — the empty Go string binds as the empty text value. -/
def bindGoString (s : String) : Option String := some s

/-- Shallow embedding of the row transformation performed by the SQL in
SaveResultActivity (temporal/shared.go): INSERT the bound values when no
row exists for the workflow_id, otherwise ON CONFLICT DO UPDATE SET with
field = COALESCE(excluded.field, results.field) for prompt, plan,
step_outputs and final_result, and status/error_details taken from
excluded unconditionally. -/
def SaveResultActivity (existing : Option ResultsRow) (input : ActivityInput) :
    ResultsRow :=
  match existing with
  | none =>
      { workflow_id := input.WorkflowID
        prompt := bindGoString input.Prompt
        plan := bindGoString input.Plan
        step_outputs := bindGoString input.StepOutputs
        final_result := bindGoString input.FinalResult
        status := input.Status
        error_details := bindGoString input.ErrorDetails }
  | some row =>
      { workflow_id := row.workflow_id
        prompt := sqlCoalesce (bindGoString input.Prompt) row.prompt
        plan := sqlCoalesce (bindGoString input.Plan) row.plan
        step_outputs := sqlCoalesce (bindGoString input.StepOutputs) row.step_outputs
        final_result := sqlCoalesce (bindGoString input.FinalResult) row.final_result
        status := input.Status
        error_details := bindGoString input.ErrorDetails }

/-- A stored row as it stands after the plan was saved during PLANNING:
prompt and plan recorded, no step outputs or result yet. -/
def c1StoredRow : ResultsRow :=
  { workflow_id := "wf1"
    prompt := some "add a LICENSE file"
    plan := some "serialized plan with one step"
    step_outputs := none
    final_result := none
    status := "PLANNING"
    error_details := none }

/-- The merge record CodeGenerationWorkflow sends on entering step 1:
only WorkflowID and Status are set, every other field is the empty Go
string. -/
def c1StepSaveInput : ActivityInput :=
  { WorkflowID := "wf1"
    Prompt := ""
    Plan := ""
    StepOutputs := ""
    FinalResult := ""
    Status := "EXECUTING_STEP_1"
    ErrorDetails := "" }

/-- Commit identifiers; 0 stands for plumbing.ZeroHash. -/
abbrev Hash := Nat

/-- The in-memory state wrapped by services.GitService: the worktree file
contents (everything the service writes is also staged, so the index names
are kept alongside), the untracked paths reported by worktree status, the
HEAD commit, the commit objects (identifier and tree snapshot), the branch
references and the credentials captured at clone time. -/
structure GitState where
  files : List (String × String)
  indexEntries : List String
  untracked : List String
  head : Option Hash
  commits : List (Hash × List (String × String))
  branches : List (String × Hash)
  username : String
  password : String
deriving Repr, DecidableEq

/-- strings.HasPrefix, computed structurally over the character lists. -/
def strStartsWith (pre s : String) : Bool :=
  pre.data.isPrefixOf s.data

/-- The body of GitService.ListFiles: collect the index entry names, then
the untracked paths not already tracked, then drop every path equal to
.git or under .git/. -/
def listFilesCore (idx untrackedPaths : List String) : List String :=
  let files := idx ++ untrackedPaths.filter (fun p => !idx.contains p)
  files.filter (fun f => !(strStartsWith ".git/" f) && f != ".git")

/-- GitService.ListFiles on the session state. -/
def GitState.ListFiles (st : GitState) : List String :=
  listFilesCore st.indexEntries st.untracked

/-- GitService.ReadFile: open the path in the worktree filesystem; a
missing file is an error. -/
def GitState.ReadFile (st : GitState) (p : String) : Except GoError String :=
  match st.files.lookup p with
  | some c => Except.ok c
  | none => Except.error (goErrorf ("file " ++ p ++ " not found in worktree"))

/-- Update an association list in place, appending when the key is new. -/
def assocSet (l : List (String × String)) (k v : String) :
    List (String × String) :=
  match l with
  | [] => [(k, v)]
  | (k2, v2) :: rest =>
      if k2 = k then (k, v) :: rest else (k2, v2) :: assocSet rest k v

/-- GitService.WriteFile: write the content into the worktree (parent
directories are implicit in the path) and stage the path. -/
def GitState.WriteFile (st : GitState) (p c : String) : GitState :=
  { st with
    files := assocSet st.files p c
    indexEntries :=
      if st.indexEntries.contains p then st.indexEntries
      else st.indexEntries ++ [p] }

/-- The tree snapshot of the HEAD commit (empty when there is no HEAD). -/
def GitState.headSnapshot (st : GitState) : List (String × String) :=
  match st.head with
  | some h => (st.commits.lookup h).getD []
  | none => []

/-- worktree.Status().IsClean(): the worktree and index carry exactly the
HEAD tree content. -/
def GitState.isClean (st : GitState) : Bool :=
  st.files == st.headSnapshot

/-- GitService.RepoHeadHash: the HEAD hash, or ZeroHash with no error when
the HEAD reference does not exist. -/
def GitState.RepoHeadHash (st : GitState) : Hash :=
  match st.head with
  | some h => h
  | none => 0

/-- A commit identifier not yet in use. -/
def freshHash (st : GitState) : Hash :=
  (st.commits.map Prod.fst).foldl max 0 + 1

/-- GitService.Commit: when the worktree is clean, return the current HEAD
hash (ZeroHash when HEAD does not exist) without error and without
creating a commit object; otherwise create a new commit object from the
worktree and advance HEAD to it. -/
def GitState.Commit (st : GitState) (_msg : String) :
    Except GoError Hash × GitState :=
  if st.isClean then
    (Except.ok st.RepoHeadHash, st)
  else
    let h := freshHash st
    (Except.ok h,
      { st with commits := st.commits ++ [(h, st.files)], head := some h })

/-- GitService.CreateBranch: resolve HEAD (its absence is an error), then
check whether the reference already exists (an existing branch is an
error), and only then set the new reference at the HEAD hash. The state is
returned unchanged on every error path. -/
def GitState.CreateBranch (st : GitState) (name : String) :
    Except GoError Unit × GitState :=
  match st.head with
  | none =>
      (Except.error (goErrorf
        ("cannot create branch " ++ name ++ ": HEAD reference not found")), st)
  | some h =>
      match st.branches.lookup name with
      | some _ =>
          (Except.error (goErrorf ("branch " ++ name ++ " already exists")), st)
      | none =>
          (Except.ok (), { st with branches := st.branches ++ [(name, h)] })

/-- GitService.PushBranch: when the stored username or password is empty
the push is skipped and nil is returned; otherwise the outcome of the
remote interaction decides, with the error wrapped (the
already-up-to-date outcome is a success and is folded into the ok case of
the oracle). -/
def GitState.PushBranch (st : GitState) (name : String)
    (remote : Except GoError Unit) : Except GoError Unit :=
  if st.username = "" || st.password = "" then
    Except.ok ()
  else
    match remote with
    | Except.ok _ => Except.ok ()
    | Except.error e =>
        Except.error (goErrorf
          ("failed to push branch " ++ name ++ " to remote: " ++ e.msg))

/-- The process-wide gitServiceMap: workflow ID to live session state.
Registration overwrites any entry under the same key (Go map assignment);
release removes the entry and is idempotent. -/
abbrev Registry := List (String × GitState)

/-- RegisterGitServiceForWorkflow: map assignment, last writer wins. -/
def regRegister (r : Registry) (k : String) (v : GitState) : Registry :=
  (k, v) :: r.filter (fun p => p.1 != k)

/-- Map lookup. -/
def regLookup (r : Registry) (k : String) : Option GitState :=
  r.lookup k

/-- CleanupGitServiceForWorkflow: delete, a missing entry is not an
error. -/
def regRelease (r : Registry) (k : String) : Registry :=
  r.filter (fun p => p.1 != k)

/-- How many entries the registry holds under a key. -/
def regCount (r : Registry) (k : String) : Nat :=
  r.countP (fun p => p.1 == k)

/-- getServiceForWorkflow (activities/git_activities.go): a lookup miss
returns a plain fmt.Errorf error. -/
def getServiceForWorkflow (r : Registry) (workflowID : String) :
    Except GoError GitState :=
  match regLookup r workflowID with
  | some s => Except.ok s
  | none =>
      Except.error (goErrorf
        ("no GitService found for workflow ID " ++ workflowID ++
          " in activity worker map"))

/-- The retry policy CodeGenWorkflow installs for its activities
(MaximumAttempts 4) lists no NonRetryableErrorTypes, so the substrate
re-attempts a failed invocation unless the error value itself was created
non-retryable. -/
def codeGenRetryPolicyRetries (e : GoError) : Bool :=
  !e.nonRetryable

/-- ListFilesGitActivity: resolve the session handle, then list. -/
def ListFilesGitActivity (r : Registry) (workflowID : String) :
    Except GoError (List String) :=
  match getServiceForWorkflow r workflowID with
  | Except.error e => Except.error e
  | Except.ok st => Except.ok st.ListFiles

/-- ReadFilesGitActivity: resolve the session handle, then read each
requested path, skipping (with a warning) every path that cannot be
read. -/
def ReadFilesGitActivity (r : Registry) (workflowID : String)
    (paths : List String) : Except GoError (List (String × String)) :=
  match getServiceForWorkflow r workflowID with
  | Except.error e => Except.error e
  | Except.ok st =>
      Except.ok (paths.filterMap (fun p =>
        (st.files.lookup p).map (fun c => (p, c))))

/-- unicode.IsSpace for the whitespace actually produced by the model
responses (ASCII whitespace). -/
def isSpaceChar (c : Char) : Bool :=
  c = ' ' || c = '\t' || c = '\n' || c = '\r'

/-- strings.TrimSpace, computed structurally over the character list. -/
def strTrim (s : String) : String :=
  ⟨((s.data.dropWhile isSpaceChar).reverse.dropWhile isSpaceChar).reverse⟩

/-- strings.Split on a comma, over the character list: every comma starts
a new piece; no comma yields the whole input as the single piece. -/
def splitCommaChars : List Char → List (List Char)
  | [] => [[]]
  | c :: rest =>
      let r := splitCommaChars rest
      if c = ',' then [] :: r
      else
        match r with
        | [] => [[c]]
        | hd :: tl => (c :: hd) :: tl

/-- strings.Split(s, comma) as strings. -/
def strSplitComma (s : String) : List String :=
  (splitCommaChars s.data).map (fun l => ⟨l⟩)

/-- LLMService.EvaluateRelevantFiles after the completion call: an empty
response content is an error; the trimmed content NONE (or blank) means no
relevant files; otherwise the content is split on commas, each piece
trimmed, and a piece is kept only when it names a file of the supplied
listing and is non-empty — anything else is dropped with a warning. -/
def EvaluateRelevantFiles (raw : String) (allFiles : List String) :
    Except GoError (List String) :=
  if raw = "" then
    Except.error (goErrorf "openai returned empty evaluation response")
  else
    let content := strTrim raw
    if content = "NONE" || content = "" then
      Except.ok []
    else
      let suggested := (strSplitComma content).map strTrim
      Except.ok (suggested.filter (fun t => allFiles.contains t && t != ""))

/-- A git state whose index also names repository metadata paths. -/
def c10State : GitState :=
  { files := [("main.go", "package main")]
    indexEntries := ["main.go", ".git", ".git/config", ".gitignore"]
    untracked := []
    head := none
    commits := []
    branches := []
    username := ""
    password := "" }

/-- WriteFilesAndCommitActivity: resolve the handle; with no changes,
return the current head hash without touching the session; otherwise write
and stage every change and commit once, storing the mutated session state
back under the workflow ID (the Go code mutates the mapped service in
place). -/
def WriteFilesAndCommitActivity (r : Registry) (workflowID : String)
    (changes : List (String × String)) (msg : String) :
    Except GoError Hash × Registry :=
  match getServiceForWorkflow r workflowID with
  | Except.error e => (Except.error e, r)
  | Except.ok st =>
      if changes = [] then
        (Except.ok st.RepoHeadHash, r)
      else
        let st1 := changes.foldl (fun s pc => s.WriteFile pc.1 pc.2) st
        match st1.Commit msg with
        | (Except.ok h, st2) => (Except.ok h, regRegister r workflowID st2)
        | (Except.error e, st2) =>
            (Except.error e, regRegister r workflowID st2)

/-- CreateBranchActivity: resolve the handle and create the branch,
storing the mutated session state back under the workflow ID. -/
def CreateBranchActivity (r : Registry) (workflowID : String)
    (name : String) : Except GoError Unit × Registry :=
  match getServiceForWorkflow r workflowID with
  | Except.error e => (Except.error e, r)
  | Except.ok st =>
      match st.CreateBranch name with
      | (Except.ok _, st2) => (Except.ok (), regRegister r workflowID st2)
      | (Except.error e, st2) =>
          (Except.error (goErrorf
            ("failed to create branch " ++ name ++ " for workflow " ++
              workflowID ++ ": " ++ e.msg)), regRegister r workflowID st2)

/-- PushBranchActivity: resolve the handle and push, wrapping a push
failure; the session state is not changed. -/
def PushBranchActivity (r : Registry) (workflowID : String) (name : String)
    (remote : Except GoError Unit) : Except GoError Unit :=
  match getServiceForWorkflow r workflowID with
  | Except.error e =>
      Except.error (goErrorf
        ("failed to get git service for push activity: " ++ e.msg))
  | Except.ok st =>
      match st.PushBranch name remote with
      | Except.ok _ => Except.ok ()
      | Except.error e =>
          Except.error (goErrorf
            ("push branch activity failed for workflow " ++ workflowID ++
              ", branch " ++ name ++ ": " ++ e.msg))

/-- The outcomes of the externally-dependent activity invocations of one
run: the clone performed by InitGitActivity, the plan decomposition, the
per-step relevance responses and generated change sets (indexed by the
1-based step number), and the remote interaction of the push. The
workflow and run identifiers, the branch-name environment variable and the
git credentials complete the run context. -/
structure WorkflowEnv where
  workflowID : String
  runID : String
  branchEnvVar : String
  gitUsername : String
  gitPassword : String
  userPrompt : String
  cloneResult : Except GoError GitState
  planResult : Except GoError (List String)
  evalRaw : Nat → Except GoError String
  genCode : Nat → Except GoError (List (String × String))
  pushRemote : Except GoError Unit

/-- InitGitActivity: clone (oracle), capture the credentials in the new
service state, and register it under the workflow ID; nothing is
registered when the clone fails. -/
def InitGitActivity (env : WorkflowEnv) (r : Registry) :
    Except GoError Unit × Registry :=
  match env.cloneResult with
  | Except.error e => (Except.error e, r)
  | Except.ok st =>
      (Except.ok (),
        regRegister r env.workflowID
          { st with username := env.gitUsername,
                    password := env.gitPassword })

/-- CleanupGitActivity: release the registry entry (idempotent). -/
def CleanupGitActivity (r : Registry) (workflowID : String) : Registry :=
  regRelease r workflowID

/-- The per-step commit message built by the workflow, truncated when too
long. -/
def stepCommitMessage (stepNum total : Nat) (step : String) : String :=
  let msg := "AI Agent: Apply step " ++ toString stepNum ++ "/" ++
    toString total ++ ": " ++ step
  if msg.length > 100 then msg.take 97 ++ "..." else msg

/-- What one pass of the step loop produced: the error that aborted it (if
any), the registry afterwards, whether the step was recorded as a no-op
(zero generated changes), and the registry state observed at each activity
boundary of the step. -/
structure StepResult where
  err : Option GoError
  reg : Registry
  noOp : Bool
  snaps : List Registry

/-- One iteration of the step loop of CodeGenWorkflow: list the session
files, filter them by relevance, read the relevant ones (skipped when none
are relevant), generate changes, and — unless the change set is empty, in
which case the step is recorded as a no-op and the loop continues — write
and commit them. Every failure aborts the run with a wrapped error. -/
def runStep (env : WorkflowEnv) (total : Nat) (r : Registry)
    (stepNum : Nat) (step : String) : StepResult :=
  match ListFilesGitActivity r env.workflowID with
  | Except.error e =>
      { err := some (goErrorf ("failed to list files for step " ++
          toString stepNum ++ ": " ++ e.msg))
        reg := r, noOp := false, snaps := [r] }
  | Except.ok allFiles =>
      match (match env.evalRaw stepNum with
             | Except.error e => Except.error e
             | Except.ok raw => EvaluateRelevantFiles raw allFiles) with
      | Except.error e =>
          { err := some (goErrorf ("evaluation failed for step " ++
              toString stepNum ++ ": " ++ e.msg))
            reg := r, noOp := false, snaps := [r, r] }
      | Except.ok relevantFiles =>
          match (if relevantFiles = [] then Except.ok []
                 else ReadFilesGitActivity r env.workflowID relevantFiles) with
          | Except.error e =>
              { err := some (goErrorf ("failed to read files for step " ++
                  toString stepNum ++ ": " ++ e.msg))
                reg := r, noOp := false, snaps := [r, r, r] }
          | Except.ok _readContent =>
              match env.genCode stepNum with
              | Except.error e =>
                  { err := some (goErrorf
                      ("code generation failed for step " ++
                        toString stepNum ++ ": " ++ e.msg))
                    reg := r, noOp := false, snaps := [r, r, r, r] }
              | Except.ok changes =>
                  if changes = [] then
                    { err := none, reg := r, noOp := true
                      snaps := [r, r, r, r] }
                  else
                    match WriteFilesAndCommitActivity r env.workflowID
                        changes (stepCommitMessage stepNum total step) with
                    | (Except.error e, r2) =>
                        { err := some (goErrorf
                            ("failed to apply changes for step " ++
                              toString stepNum ++ ": " ++ e.msg))
                          reg := r2, noOp := false
                          snaps := [r, r, r, r, r2] }
                    | (Except.ok _h, r2) =>
                        { err := none, reg := r2, noOp := false
                          snaps := [r, r, r, r, r2] }

/-- What the whole step loop produced. -/
structure LoopResult where
  err : Option GoError
  reg : Registry
  snaps : List Registry
  stepsStarted : Nat
  noOpSteps : List Nat

/-- The step loop of CodeGenWorkflow: steps run strictly in order; the
first failing step aborts the loop. -/
def runSteps (env : WorkflowEnv) (total : Nat) (r : Registry)
    (stepNum : Nat) : List String → LoopResult
  | [] => { err := none, reg := r, snaps := [], stepsStarted := 0,
            noOpSteps := [] }
  | step :: rest =>
      let sr := runStep env total r stepNum step
      match sr.err with
      | some e =>
          { err := some e, reg := sr.reg, snaps := sr.snaps,
            stepsStarted := 1, noOpSteps := [] }
      | none =>
          let lr := runSteps env total sr.reg (stepNum + 1) rest
          { err := lr.err
            reg := lr.reg
            snaps := sr.snaps ++ lr.snaps
            stepsStarted := 1 + lr.stepsStarted
            noOpSteps := (if sr.noOp then [stepNum] else []) ++ lr.noOpSteps }

/-- The workflow result value (shared.WorkflowOutput). -/
structure WorkflowOutput where
  BranchName : String
  Message : String
deriving Repr, DecidableEq

/-- What finalization produced. -/
structure FinalizeResult where
  result : Except GoError WorkflowOutput
  reg : Registry
  snaps : List Registry
  branchCreated : Bool
  pushInvoked : Bool
  pushFailed : Bool

/-- The branch name the workflow builds: the BRANCH_PREFIX environment
value, the fixed ai- marker, and the run identifier. -/
def workflowBranchName (env : WorkflowEnv) : String :=
  env.branchEnvVar ++ "ai-" ++ env.runID

/-- Finalization of CodeGenWorkflow: create the uniquely-named branch (a
failure fails the run); then, only when both git credentials are present,
push it — a push failure still returns a successful output whose message
says the branch was created but could not be pushed (the Go messages quote
the branch name; the quotes are omitted here). -/
def finalizePhase (env : WorkflowEnv) (r : Registry) : FinalizeResult :=
  let branchName := workflowBranchName env
  match CreateBranchActivity r env.workflowID branchName with
  | (Except.error e, r2) =>
      { result := Except.error (goErrorf
          ("failed to create branch " ++ branchName ++ ": " ++ e.msg))
        reg := r2, snaps := [r2], branchCreated := false,
        pushInvoked := false, pushFailed := false }
  | (Except.ok _, r2) =>
      if env.gitUsername != "" && env.gitPassword != "" then
        match PushBranchActivity r2 env.workflowID branchName
            env.pushRemote with
        | Except.error e =>
            { result := Except.ok
                { BranchName := branchName
                  Message := "Code generated on branch " ++ branchName ++
                    ", but failed to push to remote: " ++ e.msg }
              reg := r2, snaps := [r2, r2], branchCreated := true,
              pushInvoked := true, pushFailed := true }
        | Except.ok _ =>
            { result := Except.ok
                { BranchName := branchName
                  Message := "Successfully generated code and created branch "
                    ++ branchName ++ " and pushed to remote." }
              reg := r2, snaps := [r2, r2], branchCreated := true,
              pushInvoked := true, pushFailed := false }
      else
        { result := Except.ok
            { BranchName := branchName
              Message := "Successfully generated code and created branch " ++
                branchName ++ ". Push skipped (no credentials)." }
          reg := r2, snaps := [r2], branchCreated := true,
          pushInvoked := false, pushFailed := false }

/-- The observable outcome of one workflow run. -/
structure RunResult where
  result : Except GoError WorkflowOutput
  initOk : Bool
  finalReg : Registry
  snaps : List Registry
  stepsStarted : Nat
  noOpSteps : List Nat
  branchAttempted : Bool
  branchCreated : Bool
  branchNameUsed : Option String
  pushInvoked : Bool
  pushFailed : Bool

/-- The part of CodeGenWorkflow that runs once the session is registered,
with the deferred CleanupGitActivity applied to the registry on every exit
path: plan (an error or an empty plan fails the run), run every step in
order, and finalize. The snaps field records the registry as observed at
each activity boundary after registration and before the deferred
cleanup. -/
def codeGenAfterInit (env : WorkflowEnv) (r1 : Registry) : RunResult :=
  match env.planResult with
      | Except.error e =>
          { result := Except.error (goErrorf
              ("planning failed: " ++ e.msg))
            initOk := true, finalReg := CleanupGitActivity r1 env.workflowID,
            snaps := [r1], stepsStarted := 0, noOpSteps := [],
            branchAttempted := false, branchCreated := false,
            branchNameUsed := none, pushInvoked := false,
            pushFailed := false }
      | Except.ok steps =>
          if steps = [] then
            { result := Except.error (goErrorf
                "planning resulted in zero steps")
              initOk := true,
              finalReg := CleanupGitActivity r1 env.workflowID,
              snaps := [r1], stepsStarted := 0, noOpSteps := [],
              branchAttempted := false, branchCreated := false,
              branchNameUsed := none, pushInvoked := false,
              pushFailed := false }
          else
            let lr := runSteps env steps.length r1 1 steps
            match lr.err with
            | some e =>
                { result := Except.error e, initOk := true,
                  finalReg := CleanupGitActivity lr.reg env.workflowID,
                  snaps := r1 :: lr.snaps, stepsStarted := lr.stepsStarted,
                  noOpSteps := lr.noOpSteps, branchAttempted := false,
                  branchCreated := false, branchNameUsed := none,
                  pushInvoked := false, pushFailed := false }
            | none =>
                let fin := finalizePhase env lr.reg
                { result := fin.result, initOk := true,
                  finalReg := CleanupGitActivity fin.reg env.workflowID,
                  snaps := r1 :: (lr.snaps ++ fin.snaps),
                  stepsStarted := lr.stepsStarted,
                  noOpSteps := lr.noOpSteps, branchAttempted := true,
                  branchCreated := fin.branchCreated,
                  branchNameUsed := some (workflowBranchName env),
                  pushInvoked := fin.pushInvoked,
                  pushFailed := fin.pushFailed }

/-- CodeGenWorkflow: set up the git session and register it (an init
failure is fatal and returns before the deferred cleanup is installed);
afterwards the run proceeds with guaranteed cleanup on every exit path. -/
def CodeGenWorkflow (env : WorkflowEnv) (r0 : Registry) : RunResult :=
  match InitGitActivity env r0 with
  | (Except.error e, r1) =>
      { result := Except.error (goErrorf
          ("git initialization failed: " ++ e.msg))
        initOk := false, finalReg := r1, snaps := [], stepsStarted := 0,
        noOpSteps := [], branchAttempted := false, branchCreated := false,
        branchNameUsed := none, pushInvoked := false,
        pushFailed := false }
  | (Except.ok _, r1) => codeGenAfterInit env r1

/-- A minimal cloned repository state: one committed file at HEAD. -/
def witnessClonedState : GitState :=
  { files := [("README.md", "hello")]
    indexEntries := ["README.md"]
    untracked := []
    head := some 1
    commits := [(1, [("README.md", "hello")])]
    branches := [("master", 1)]
    username := ""
    password := "" }

/-- A run environment whose planning phase yields a plan with zero
steps. -/
def envEmptyPlan : WorkflowEnv :=
  { workflowID := "wf1"
    runID := "run1"
    branchEnvVar := ""
    gitUsername := ""
    gitPassword := ""
    userPrompt := "do nothing"
    cloneResult := Except.ok witnessClonedState
    planResult := Except.ok []
    evalRaw := fun _ => Except.ok "NONE"
    genCode := fun _ => Except.ok []
    pushRemote := Except.ok () }

/-- A run whose branch is created but whose push to the remote fails. -/
def envPushFail : WorkflowEnv :=
  { envEmptyPlan with
      planResult := Except.ok ["add docs"]
      gitUsername := "user"
      gitPassword := "token"
      pushRemote := Except.error (goErrorf "connection refused") }

/-- A cloned state that already carries the branch the run will try to
create. -/
def stCollision : GitState :=
  { witnessClonedState with branches := [("master", 1), ("ai-run1", 1)] }

/-- A run whose finalization collides with the pre-existing branch. -/
def envCollision : WorkflowEnv :=
  { envEmptyPlan with
      planResult := Except.ok ["add docs"]
      cloneResult := Except.ok stCollision }

/-- A run whose only step generates no changes. -/
def envNoOpStep : WorkflowEnv :=
  { envEmptyPlan with planResult := Except.ok ["add docs"] }

/-! ## Theorems -/

/-- C1: evaluating the upsert at the failing input shows the divergence:
the incoming empty prompt and plan are bound as non-NULL empty text, so
COALESCE takes them and the previously stored non-empty prompt and plan
are erased, contrary to the keep-existing-when-incoming-empty contract
(status and error detail are, as claimed, taken from the incoming
record). -/
theorem c1_code_bug_eval :
    (SaveResultActivity (some c1StoredRow) c1StepSaveInput).prompt = some "" ∧
    (SaveResultActivity (some c1StoredRow) c1StepSaveInput).prompt ≠
      some "add a LICENSE file" ∧
    (SaveResultActivity (some c1StoredRow) c1StepSaveInput).plan = some "" ∧
    (SaveResultActivity (some c1StoredRow) c1StepSaveInput).status =
      "EXECUTING_STEP_1" := by
  refine ⟨rfl, ?_, rfl, rfl⟩
  decide

/-- C4, counterexample: a row whose stored status is terminal (COMPLETED)
and a later upsert carrying the phase status PLANNING: the store records
PLANNING, moving the status backward out of the terminal state. -/
theorem c4_counterexample :
    (SaveResultActivity
        (some { c1StoredRow with status := "COMPLETED" })
        { c1StepSaveInput with Status := "PLANNING" }).status = "PLANNING" ∧
    ("PLANNING" : String) ≠ "COMPLETED" := by
  refine ⟨rfl, ?_⟩
  decide

/-- C4 amended: the Status Store applies every incoming status
unconditionally (status = excluded.status, last write wins): an upsert
never rejects a transition, and in particular a terminal stored status is
replaced by whatever status the next upsert carries. -/
theorem c4_amended_status_always_overwritten (row : ResultsRow)
    (input : ActivityInput) :
    (SaveResultActivity (some row) input).status = input.Status ∧
    (SaveResultActivity none input).status = input.Status :=
  ⟨rfl, rfl⟩

/-- C5, counterexample: a lookup miss (empty registry) makes the git
activities fail, but with a plain retryable error carrying no error kind
tag, which the retry policy of the workflow would re-attempt. -/
theorem c5_counterexample :
    ∃ e, getServiceForWorkflow [] "wf1" = Except.error e ∧
      e.nonRetryable = false ∧ e.kind = none ∧
      codeGenRetryPolicyRetries e = true :=
  ⟨goErrorf
      "no GitService found for workflow ID wf1 in activity worker map",
    rfl, rfl, rfl, rfl⟩

/-- C5 amended: a registry lookup that finds no handle for the workflow ID
makes the invocation fail immediately (no result is produced), but the
error is an ordinary wrapped error — not marked non-retryable and with no
error kind tag — so the retry policy of the workflow re-attempts the
invocation up to its attempt limit. -/
theorem c5_amended_lookup_miss_plain_retryable_error (r : Registry)
    (workflowID : String) (h : regLookup r workflowID = none) :
    ∃ e, getServiceForWorkflow r workflowID = Except.error e ∧
      ListFilesGitActivity r workflowID = Except.error e ∧
      e.nonRetryable = false ∧ e.kind = none ∧
      codeGenRetryPolicyRetries e = true := by
  refine ⟨goErrorf
      ("no GitService found for workflow ID " ++ workflowID ++
        " in activity worker map"), ?_, ?_, rfl, rfl, rfl⟩
  · simp [getServiceForWorkflow, h]
  · simp [ListFilesGitActivity, getServiceForWorkflow, h]

/-- C5 witness: the amended statement at the empty registry. -/
theorem c5_amended_witness :
    ∃ e, getServiceForWorkflow [] "wf9" = Except.error e ∧
      ListFilesGitActivity [] "wf9" = Except.error e ∧
      e.nonRetryable = false ∧ e.kind = none ∧
      codeGenRetryPolicyRetries e = true :=
  c5_amended_lookup_miss_plain_retryable_error [] "wf9" rfl

/-- Helper: a non-empty raw response never yields an error, and every
returned path is a member of the supplied listing. -/
theorem evaluateRelevantFiles_subset (raw : String) (allFiles : List String)
    (h : raw ≠ "") :
    ∃ res, EvaluateRelevantFiles raw allFiles = Except.ok res ∧
      ∀ p ∈ res, p ∈ allFiles := by
  unfold EvaluateRelevantFiles
  rw [if_neg h]
  dsimp only
  split
  · exact ⟨[], rfl, by simp⟩
  · refine ⟨_, rfl, ?_⟩
    intro p hp
    have hmem := List.of_mem_filter hp
    have hcontains : allFiles.contains p = true :=
      (Bool.and_eq_true _ _ |>.mp hmem).1
    exact List.elem_iff.mp hcontains

/-- C9: for every relevance-filter call with a non-empty response, the
call succeeds and the returned relevant-file set is a subset of the file
listing supplied as input; a suggested path absent from the listing is
dropped, never an error. -/
theorem c9_relevant_files_subset_of_listing (raw : String)
    (allFiles : List String) (h : raw ≠ "") :
    ∃ res, EvaluateRelevantFiles raw allFiles = Except.ok res ∧
      ∀ p ∈ res, p ∈ allFiles :=
  evaluateRelevantFiles_subset raw allFiles h

/-- C9 witness: a response suggesting one existing and one non-existent
file: the call succeeds and only the existing file is returned. -/
theorem c9_witness :
    (("a.go, ghost.go" : String) ≠ "" ∧
      ∃ res, EvaluateRelevantFiles "a.go, ghost.go" ["a.go", "b.go"] =
          Except.ok res ∧ ∀ p ∈ res, p ∈ ["a.go", "b.go"]) ∧
    (strTrim "a.go, ghost.go" = "a.go, ghost.go" ∧
      (strSplitComma "a.go, ghost.go").map strTrim = ["a.go", "ghost.go"]) :=
  ⟨⟨by decide,
    c9_relevant_files_subset_of_listing "a.go, ghost.go" ["a.go", "b.go"]
      (by decide)⟩,
   by decide⟩

/-- C10: every path produced by ListFiles survives the final filter of
GitService.ListFiles, hence no returned path equals .git and none starts
with .git/. -/
theorem c10_listfiles_excludes_git_dir (st : GitState) (p : String)
    (h : p ∈ st.ListFiles) :
    p ≠ ".git" ∧ (strStartsWith ".git/" p) = false := by
  unfold GitState.ListFiles listFilesCore at h
  have hcond := List.of_mem_filter h
  have hand := (Bool.and_eq_true _ _).mp hcond
  constructor
  · exact bne_iff_ne.mp hand.2
  · have hnot : (!(strStartsWith ".git/" p)) = true := hand.1
    simpa using hnot

/-- C10 witness: the metadata paths are dropped and ordinary paths kept,
and a kept path satisfies the exclusion property. -/
theorem c10_witness :
    ("main.go" ∈ c10State.ListFiles ∧
      (("main.go" : String) ≠ ".git" ∧
        (strStartsWith ".git/" "main.go") = false)) ∧
    c10State.ListFiles = ["main.go", ".gitignore"] := by
  refine ⟨⟨?_, ?_⟩, by decide⟩
  · decide
  · exact c10_listfiles_excludes_git_dir c10State "main.go" (by decide)

/-- Releasing a key leaves no entry under that key. -/
theorem regCount_regRelease (r : Registry) (k : String) :
    regCount (regRelease r k) k = 0 := by
  induction r with
  | nil => rfl
  | cons p rest ih =>
      by_cases h : p.1 = k
      · simp [regRelease, regCount, List.filter_cons, h, ih]
      · simp [regRelease, regCount, List.filter_cons, List.countP_cons, h, ih]

/-- Registering a handle leaves exactly one entry under the key, whatever
the registry held before. -/
theorem regCount_regRegister (r : Registry) (k : String) (v : GitState) :
    regCount (regRegister r k v) k = 1 := by
  have h0 := regCount_regRelease r k
  unfold regCount regRegister regRelease at *
  simp [List.countP_cons, h0]

/-- The registry returned by WriteFilesAndCommitActivity is either the
input registry or the input registry with the session state overwritten
under the workflow ID. -/
theorem writeFilesAndCommit_reg_shape (r : Registry) (wf : String)
    (changes : List (String × String)) (msg : String) :
    (WriteFilesAndCommitActivity r wf changes msg).2 = r ∨
    ∃ st, (WriteFilesAndCommitActivity r wf changes msg).2 =
      regRegister r wf st := by
  cases hsv : getServiceForWorkflow r wf with
  | error e =>
      left
      simp [WriteFilesAndCommitActivity, hsv]
  | ok st =>
      by_cases hemp : changes = []
      · left
        simp [WriteFilesAndCommitActivity, hsv, hemp]
      · cases hc : (changes.foldl (fun s pc => s.WriteFile pc.1 pc.2)
            st).Commit msg with
        | mk res st2 =>
            right
            refine ⟨st2, ?_⟩
            cases res <;> simp [WriteFilesAndCommitActivity, hsv, hemp, hc]

/-- The registry returned by CreateBranchActivity is either the input
registry or the input registry with the session state overwritten under
the workflow ID. -/
theorem createBranchActivity_reg_shape (r : Registry) (wf name : String) :
    (CreateBranchActivity r wf name).2 = r ∨
    ∃ st, (CreateBranchActivity r wf name).2 = regRegister r wf st := by
  cases hsv : getServiceForWorkflow r wf with
  | error e =>
      left
      simp [CreateBranchActivity, hsv]
  | ok st =>
      cases hc : st.CreateBranch name with
      | mk res st2 =>
          right
          refine ⟨st2, ?_⟩
          cases res <;> simp [CreateBranchActivity, hsv, hc]

/-- One step of the loop preserves the exactly-one-entry invariant, for
the registry it returns and for every registry state it observed. -/
theorem runStep_regCount (env : WorkflowEnv) (total : Nat) (r : Registry)
    (stepNum : Nat) (step : String)
    (h : regCount r env.workflowID = 1) :
    regCount (runStep env total r stepNum step).reg env.workflowID = 1 ∧
    ∀ s ∈ (runStep env total r stepNum step).snaps,
      regCount s env.workflowID = 1 := by
  cases hl : ListFilesGitActivity r env.workflowID with
  | error e =>
      constructor
      · simp [runStep, hl]
        exact h
      · intro s hs
        simp [runStep, hl] at hs
        exact hs ▸ h
  | ok allFiles =>
      cases he : (match env.evalRaw stepNum with
                  | Except.error e => Except.error e
                  | Except.ok raw => EvaluateRelevantFiles raw allFiles) with
      | error e =>
          constructor
          · simp [runStep, hl, he]
            exact h
          · intro s hs
            simp [runStep, hl, he] at hs
            exact hs ▸ h
      | ok relevantFiles =>
          cases hrf : (if relevantFiles = [] then Except.ok []
                       else ReadFilesGitActivity r env.workflowID
                         relevantFiles) with
          | error e =>
              constructor
              · simp [runStep, hl, he, hrf]
                exact h
              · intro s hs
                simp [runStep, hl, he, hrf] at hs
                exact hs ▸ h
          | ok readContent =>
              cases hg : env.genCode stepNum with
              | error e =>
                  constructor
                  · simp [runStep, hl, he, hrf, hg]
                    exact h
                  · intro s hs
                    simp [runStep, hl, he, hrf, hg] at hs
                    exact hs ▸ h
              | ok changes =>
                  by_cases hemp : changes = []
                  · constructor
                    · simp [runStep, hl, he, hrf, hg, hemp]
                      exact h
                    · intro s hs
                      simp [runStep, hl, he, hrf, hg, hemp] at hs
                      exact hs ▸ h
                  · have hshape := writeFilesAndCommit_reg_shape r
                      env.workflowID changes
                      (stepCommitMessage stepNum total step)
                    have hr2 : regCount (WriteFilesAndCommitActivity r
                        env.workflowID changes
                        (stepCommitMessage stepNum total step)).2
                        env.workflowID = 1 := by
                      rcases hshape with heq | ⟨st, heq⟩
                      · rw [heq]; exact h
                      · rw [heq]
                        exact regCount_regRegister r env.workflowID st
                    cases hw : WriteFilesAndCommitActivity r env.workflowID
                        changes (stepCommitMessage stepNum total step) with
                    | mk res r2 =>
                        rw [hw] at hr2
                        cases res with
                        | error e =>
                            constructor
                            · simp [runStep, hl, he, hrf, hg, hemp, hw]
                              exact hr2
                            · intro s hs
                              simp [runStep, hl, he, hrf, hg, hemp, hw] at hs
                              rcases hs with rfl | rfl
                              · exact h
                              · exact hr2
                        | ok hsh =>
                            constructor
                            · simp [runStep, hl, he, hrf, hg, hemp, hw]
                              exact hr2
                            · intro s hs
                              simp [runStep, hl, he, hrf, hg, hemp, hw] at hs
                              rcases hs with rfl | rfl
                              · exact h
                              · exact hr2

/-- The step loop preserves the exactly-one-entry invariant. -/
theorem runSteps_regCount (env : WorkflowEnv) (total : Nat)
    (steps : List String) :
    ∀ (r : Registry) (stepNum : Nat),
      regCount r env.workflowID = 1 →
      regCount (runSteps env total r stepNum steps).reg env.workflowID = 1 ∧
      ∀ s ∈ (runSteps env total r stepNum steps).snaps,
        regCount s env.workflowID = 1 := by
  induction steps with
  | nil =>
      intro r stepNum h
      exact ⟨h, by intro s hs; simp [runSteps] at hs⟩
  | cons step rest ih =>
      intro r stepNum h
      have hstep := runStep_regCount env total r stepNum step h
      simp only [runSteps]
      cases he : (runStep env total r stepNum step).err with
      | some e => exact ⟨hstep.1, hstep.2⟩
      | none =>
          have hrest := ih (runStep env total r stepNum step).reg
            (stepNum + 1) hstep.1
          refine ⟨hrest.1, ?_⟩
          intro s hs
          rcases List.mem_append.mp hs with hs | hs
          · exact hstep.2 s hs
          · exact hrest.2 s hs

/-- Finalization preserves the exactly-one-entry invariant for the
registry it returns and for every registry state it observed. -/
theorem finalizePhase_regCount (env : WorkflowEnv) (r : Registry)
    (h : regCount r env.workflowID = 1) :
    regCount (finalizePhase env r).reg env.workflowID = 1 ∧
    ∀ s ∈ (finalizePhase env r).snaps, regCount s env.workflowID = 1 := by
  have hshape := createBranchActivity_reg_shape r env.workflowID
    (workflowBranchName env)
  have hr2 : regCount (CreateBranchActivity r env.workflowID
      (workflowBranchName env)).2 env.workflowID = 1 := by
    rcases hshape with heq | ⟨st, heq⟩
    · rw [heq]; exact h
    · rw [heq]; exact regCount_regRegister r env.workflowID st
  cases hcb : CreateBranchActivity r env.workflowID
      (workflowBranchName env) with
  | mk res r2 =>
      rw [hcb] at hr2
      cases res with
      | error e =>
          constructor
          · simp [finalizePhase, hcb]
            exact hr2
          · intro s hs
            simp [finalizePhase, hcb] at hs
            exact hs ▸ hr2
      | ok u =>
          by_cases hcred : (env.gitUsername != "" && env.gitPassword != "")
              = true
          · cases hp : PushBranchActivity r2 env.workflowID
                (workflowBranchName env) env.pushRemote with
            | error e =>
                constructor
                · simp [finalizePhase, hcb, hcred, hp]
                  exact hr2
                · intro s hs
                  simp [finalizePhase, hcb, hcred, hp] at hs
                  exact hs ▸ hr2
            | ok u2 =>
                constructor
                · simp [finalizePhase, hcb, hcred, hp]
                  exact hr2
                · intro s hs
                  simp [finalizePhase, hcb, hcred, hp] at hs
                  exact hs ▸ hr2
          · constructor
            · simp [finalizePhase, hcb, hcred]
              exact hr2
            · intro s hs
              simp [finalizePhase, hcb, hcred] at hs
              exact hs ▸ hr2

/-- After registration, the exactly-one invariant holds at every observed
boundary and the deferred cleanup leaves no entry, on every exit path. -/
theorem codeGenAfterInit_regCount (env : WorkflowEnv) (r1 : Registry)
    (h1 : regCount r1 env.workflowID = 1) :
    (∀ s ∈ (codeGenAfterInit env r1).snaps,
        regCount s env.workflowID = 1) ∧
    regCount (codeGenAfterInit env r1).finalReg env.workflowID = 0 := by
  cases hp : env.planResult with
  | error e =>
      constructor
      · intro s hs
        simp [codeGenAfterInit, hp] at hs
        exact hs ▸ h1
      · simp [codeGenAfterInit, hp, CleanupGitActivity]
        exact regCount_regRelease r1 env.workflowID
  | ok steps =>
      by_cases hsteps : steps = []
      · constructor
        · intro s hs
          simp [codeGenAfterInit, hp, hsteps] at hs
          exact hs ▸ h1
        · simp [codeGenAfterInit, hp, hsteps, CleanupGitActivity]
          exact regCount_regRelease r1 env.workflowID
      · have hloop := runSteps_regCount env steps.length steps r1 1 h1
        cases hle : (runSteps env steps.length r1 1 steps).err with
        | some e =>
            constructor
            · intro s hs
              simp [codeGenAfterInit, hp, hsteps, hle] at hs
              rcases hs with rfl | hs
              · exact h1
              · exact hloop.2 s hs
            · simp [codeGenAfterInit, hp, hsteps, hle, CleanupGitActivity]
              exact regCount_regRelease _ _
        | none =>
            have hfin := finalizePhase_regCount env
              (runSteps env steps.length r1 1 steps).reg hloop.1
            constructor
            · intro s hs
              simp [codeGenAfterInit, hp, hsteps, hle] at hs
              rcases hs with rfl | hs | hs
              · exact h1
              · exact hloop.2 s hs
              · exact hfin.2 s hs
            · simp [codeGenAfterInit, hp, hsteps, hle, CleanupGitActivity]
              exact regCount_regRelease _ _

/-- C2: for every run whose InitGitActivity succeeded, every registry
state observed between registration and exit holds exactly one entry
under the run workflow ID, and after the run exits — by success, by any
phase failure, or after the deferred cleanup on any other path — no entry
for that workflow ID remains. -/
theorem c2_registry_exactly_one_handle (env : WorkflowEnv) (r0 : Registry)
    (h : (CodeGenWorkflow env r0).initOk = true) :
    (∀ s ∈ (CodeGenWorkflow env r0).snaps,
        regCount s env.workflowID = 1) ∧
    regCount (CodeGenWorkflow env r0).finalReg env.workflowID = 0 := by
  cases hc : env.cloneResult with
  | error e =>
      exfalso
      simp [CodeGenWorkflow, InitGitActivity, hc] at h
  | ok st0 =>
      have h1 := regCount_regRegister r0 env.workflowID
        { st0 with username := env.gitUsername, password := env.gitPassword }
      have hmain := codeGenAfterInit_regCount env
        (regRegister r0 env.workflowID
          { st0 with username := env.gitUsername,
                     password := env.gitPassword }) h1
      constructor
      · intro s hs
        refine hmain.1 s ?_
        simpa [CodeGenWorkflow, InitGitActivity, hc] using hs
      · have : (CodeGenWorkflow env r0).finalReg =
            (codeGenAfterInit env (regRegister r0 env.workflowID
              { st0 with username := env.gitUsername,
                         password := env.gitPassword })).finalReg := by
          simp [CodeGenWorkflow, InitGitActivity, hc]
        rw [this]
        exact hmain.2

/-- C2 witness: a concrete run (empty plan, so it exits by failure) whose
init succeeded: one entry at every boundary, none after exit. -/
theorem c2_witness :
    (CodeGenWorkflow envEmptyPlan []).initOk = true ∧
    ((∀ s ∈ (CodeGenWorkflow envEmptyPlan []).snaps,
        regCount s envEmptyPlan.workflowID = 1) ∧
      regCount (CodeGenWorkflow envEmptyPlan []).finalReg
        envEmptyPlan.workflowID = 0) :=
  ⟨rfl, c2_registry_exactly_one_handle envEmptyPlan [] rfl⟩

/-- C3: whenever the planning phase produces a plan with zero steps, the
run returns an error (FAILED), executes no step, and never returns a
successful output. -/
theorem c3_zero_step_plan_fails (env : WorkflowEnv) (r0 : Registry)
    (h : env.planResult = Except.ok []) :
    (∃ e, (CodeGenWorkflow env r0).result = Except.error e) ∧
    (CodeGenWorkflow env r0).stepsStarted = 0 ∧
    ∀ out, (CodeGenWorkflow env r0).result ≠ Except.ok out := by
  cases hc : env.cloneResult with
  | error e =>
      refine ⟨⟨goErrorf ("git initialization failed: " ++ e.msg), ?_⟩, ?_, ?_⟩
      · simp [CodeGenWorkflow, InitGitActivity, hc]
      · simp [CodeGenWorkflow, InitGitActivity, hc]
      · intro out
        simp [CodeGenWorkflow, InitGitActivity, hc]
  | ok st0 =>
      refine ⟨⟨goErrorf "planning resulted in zero steps", ?_⟩, ?_, ?_⟩
      · simp [CodeGenWorkflow, InitGitActivity, hc, codeGenAfterInit, h]
      · simp [CodeGenWorkflow, InitGitActivity, hc, codeGenAfterInit, h]
      · intro out
        simp [CodeGenWorkflow, InitGitActivity, hc, codeGenAfterInit, h]

/-- C3 witness: the concrete empty-plan run fails without executing a
step. -/
theorem c3_witness :
    envEmptyPlan.planResult = Except.ok [] ∧
    ((∃ e, (CodeGenWorkflow envEmptyPlan []).result = Except.error e) ∧
      (CodeGenWorkflow envEmptyPlan []).stepsStarted = 0 ∧
      ∀ out, (CodeGenWorkflow envEmptyPlan []).result ≠ Except.ok out) :=
  ⟨rfl, c3_zero_step_plan_fails envEmptyPlan [] rfl⟩

/-- Facts about finalization: a created branch always yields a successful
result; absent credentials skip the push and yield the skip message; a
failed push still yields a successful result whose message says the branch
was created but could not be pushed; and when the branch was not created,
finalization fails. -/
theorem finalizePhase_facts (env : WorkflowEnv) (r : Registry) :
    ((finalizePhase env r).branchCreated = true →
      ∃ out, (finalizePhase env r).result = Except.ok out) ∧
    ((env.gitUsername = "" ∨ env.gitPassword = "") →
      (finalizePhase env r).pushInvoked = false ∧
      ((finalizePhase env r).branchCreated = true →
        (finalizePhase env r).result = Except.ok
          { BranchName := workflowBranchName env
            Message := "Successfully generated code and created branch " ++
              workflowBranchName env ++
              ". Push skipped (no credentials)." })) ∧
    ((finalizePhase env r).pushFailed = true →
      ∃ m, (finalizePhase env r).result = Except.ok
        { BranchName := workflowBranchName env
          Message := "Code generated on branch " ++ workflowBranchName env ++
            ", but failed to push to remote: " ++ m }) ∧
    ((finalizePhase env r).branchCreated = false →
      ∃ e, (finalizePhase env r).result = Except.error e) := by
  cases hcb : CreateBranchActivity r env.workflowID
      (workflowBranchName env) with
  | mk res r2 =>
      cases res with
      | error e =>
          refine ⟨?_, ?_, ?_, ?_⟩
          · intro hb
            exfalso
            simp [finalizePhase, hcb] at hb
          · intro hcreds
            constructor
            · simp [finalizePhase, hcb]
            · intro hb
              exfalso
              simp [finalizePhase, hcb] at hb
          · intro hpf
            exfalso
            simp [finalizePhase, hcb] at hpf
          · intro hb
            exact ⟨goErrorf ("failed to create branch " ++
              workflowBranchName env ++ ": " ++ e.msg),
              by simp [finalizePhase, hcb]⟩
      | ok u =>
          by_cases hcred : (env.gitUsername != "" && env.gitPassword != "")
              = true
          · cases hp : PushBranchActivity r2 env.workflowID
                (workflowBranchName env) env.pushRemote with
            | error e =>
                refine ⟨?_, ?_, ?_, ?_⟩
                · intro hb
                  refine ⟨{ BranchName := workflowBranchName env
                            Message := "Code generated on branch " ++
                              workflowBranchName env ++
                              ", but failed to push to remote: " ++ e.msg },
                    ?_⟩
                  simp [finalizePhase, hcb, hcred, hp]
                · intro hcreds
                  exfalso
                  rcases hcreds with hu | hpw
                  · simp [hu] at hcred
                  · simp [hpw] at hcred
                · intro hpf
                  exact ⟨e.msg, by simp [finalizePhase, hcb, hcred, hp]⟩
                · intro hb
                  exfalso
                  simp [finalizePhase, hcb, hcred, hp] at hb
            | ok u2 =>
                refine ⟨?_, ?_, ?_, ?_⟩
                · intro hb
                  refine ⟨{ BranchName := workflowBranchName env
                            Message :=
                              "Successfully generated code and created branch "
                              ++ workflowBranchName env ++
                              " and pushed to remote." }, ?_⟩
                  simp [finalizePhase, hcb, hcred, hp]
                · intro hcreds
                  exfalso
                  rcases hcreds with hu | hpw
                  · simp [hu] at hcred
                  · simp [hpw] at hcred
                · intro hpf
                  exfalso
                  simp [finalizePhase, hcb, hcred, hp] at hpf
                · intro hb
                  exfalso
                  simp [finalizePhase, hcb, hcred, hp] at hb
          · refine ⟨?_, ?_, ?_, ?_⟩
            · intro hb
              refine ⟨{ BranchName := workflowBranchName env
                        Message :=
                          "Successfully generated code and created branch " ++
                          workflowBranchName env ++
                          ". Push skipped (no credentials)." }, ?_⟩
              simp [finalizePhase, hcb, hcred]
            · intro hcreds
              constructor
              · simp [finalizePhase, hcb, hcred]
              · intro hb
                simp [finalizePhase, hcb, hcred]
            · intro hpf
              exfalso
              simp [finalizePhase, hcb, hcred] at hpf
            · intro hb
              exfalso
              simp [finalizePhase, hcb, hcred] at hb

/-- Lift of the finalization facts through the post-registration run: when
the branch was created, the run result and push observations are those of
finalization. -/
theorem codeGenAfterInit_finalize_fields (env : WorkflowEnv) (r1 : Registry)
    (hatt : (codeGenAfterInit env r1).branchAttempted = true) :
    ∃ rloop,
      (codeGenAfterInit env r1).result = (finalizePhase env rloop).result ∧
      (codeGenAfterInit env r1).branchCreated =
        (finalizePhase env rloop).branchCreated ∧
      (codeGenAfterInit env r1).pushInvoked =
        (finalizePhase env rloop).pushInvoked ∧
      (codeGenAfterInit env r1).pushFailed =
        (finalizePhase env rloop).pushFailed ∧
      (codeGenAfterInit env r1).branchNameUsed =
        some (workflowBranchName env) := by
  cases hp : env.planResult with
  | error e =>
      exfalso
      simp [codeGenAfterInit, hp] at hatt
  | ok steps =>
      by_cases hsteps : steps = []
      · exfalso
        simp [codeGenAfterInit, hp, hsteps] at hatt
      · cases hle : (runSteps env steps.length r1 1 steps).err with
        | some e =>
            exfalso
            simp [codeGenAfterInit, hp, hsteps, hle] at hatt
        | none =>
            refine ⟨(runSteps env steps.length r1 1 steps).reg,
              ?_, ?_, ?_, ?_, ?_⟩ <;>
              simp [codeGenAfterInit, hp, hsteps, hle]

/-- C6: whenever a run created its branch, the run returns a successful
output — a push failure never fails the run, and the message then states
the branch was created but could not be pushed; and with a git credential
absent the push activity is never invoked and the run completes with the
skip message. -/
theorem c6_push_failure_never_fails_run (env : WorkflowEnv) (r0 : Registry)
    (h : (CodeGenWorkflow env r0).branchCreated = true) :
    (∃ out, (CodeGenWorkflow env r0).result = Except.ok out) ∧
    ((env.gitUsername = "" ∨ env.gitPassword = "") →
      (CodeGenWorkflow env r0).pushInvoked = false ∧
      (CodeGenWorkflow env r0).result = Except.ok
        { BranchName := workflowBranchName env
          Message := "Successfully generated code and created branch " ++
            workflowBranchName env ++ ". Push skipped (no credentials)." }) ∧
    ((CodeGenWorkflow env r0).pushFailed = true →
      ∃ m, (CodeGenWorkflow env r0).result = Except.ok
        { BranchName := workflowBranchName env
          Message := "Code generated on branch " ++ workflowBranchName env ++
            ", but failed to push to remote: " ++ m }) := by
  cases hc : env.cloneResult with
  | error e =>
      exfalso
      simp [CodeGenWorkflow, InitGitActivity, hc] at h
  | ok st0 =>
      have hred : CodeGenWorkflow env r0 = codeGenAfterInit env
          (regRegister r0 env.workflowID
            { st0 with username := env.gitUsername,
                       password := env.gitPassword }) := by
        simp [CodeGenWorkflow, InitGitActivity, hc]
      rw [hred] at h ⊢
      have hatt : (codeGenAfterInit env
          (regRegister r0 env.workflowID
            { st0 with username := env.gitUsername,
                       password := env.gitPassword })).branchAttempted
          = true := by
        cases hp : env.planResult with
        | error e => exfalso; simp [codeGenAfterInit, hp] at h
        | ok steps =>
            by_cases hsteps : steps = []
            · exfalso; simp [codeGenAfterInit, hp, hsteps] at h
            · cases hle : (runSteps env steps.length
                  (regRegister r0 env.workflowID
                    { st0 with username := env.gitUsername,
                               password := env.gitPassword }) 1 steps).err with
              | some e => exfalso
                          simp [codeGenAfterInit, hp, hsteps, hle] at h
              | none => simp [codeGenAfterInit, hp, hsteps, hle]
      obtain ⟨rloop, hres, hbc, hpi, hpf, hbn⟩ :=
        codeGenAfterInit_finalize_fields env
          (regRegister r0 env.workflowID
            { st0 with username := env.gitUsername,
                       password := env.gitPassword }) hatt
      rw [hbc] at h
      have hfin := finalizePhase_facts env rloop
      refine ⟨?_, ?_, ?_⟩
      · obtain ⟨out, hout⟩ := hfin.1 h
        exact ⟨out, by rw [hres]; exact hout⟩
      · intro hcreds
        obtain ⟨hskip, hmsg⟩ := hfin.2.1 hcreds
        exact ⟨by rw [hpi]; exact hskip, by rw [hres]; exact hmsg h⟩
      · intro hpfail
        rw [hpf] at hpfail
        obtain ⟨m, hm⟩ := hfin.2.2.1 hpfail
        exact ⟨m, by rw [hres]; exact hm⟩

/-- C6 witness: the run with a failing remote still returns a successful
output. -/
theorem c6_witness :
    (CodeGenWorkflow envPushFail []).branchCreated = true ∧
    ((∃ out, (CodeGenWorkflow envPushFail []).result = Except.ok out) ∧
      ((envPushFail.gitUsername = "" ∨ envPushFail.gitPassword = "") →
        (CodeGenWorkflow envPushFail []).pushInvoked = false ∧
        (CodeGenWorkflow envPushFail []).result = Except.ok
          { BranchName := workflowBranchName envPushFail
            Message := "Successfully generated code and created branch " ++
              workflowBranchName envPushFail ++
              ". Push skipped (no credentials)." }) ∧
      ((CodeGenWorkflow envPushFail []).pushFailed = true →
        ∃ m, (CodeGenWorkflow envPushFail []).result = Except.ok
          { BranchName := workflowBranchName envPushFail
            Message := "Code generated on branch " ++
              workflowBranchName envPushFail ++
              ", but failed to push to remote: " ++ m })) :=
  ⟨by decide, c6_push_failure_never_fails_run envPushFail [] (by decide)⟩

/-- C7: the run builds its branch name from the configured value, the
ai- marker and the run identifier;
CreateBranch on a state that already holds a branch of the requested name
returns an error and leaves the repository state (in particular its
references) unchanged; when the name is free and HEAD exists the branch is
created pointing at the HEAD hash; and a run that attempted branch
creation without succeeding fails. -/
theorem c7_branch_naming_and_collision_fatal :
    (∀ (st : GitState) (name : String),
      (st.branches.lookup name).isSome = true →
      ∃ e, st.CreateBranch name = (Except.error e, st)) ∧
    (∀ (st : GitState) (name : String) (h0 : Hash),
      st.head = some h0 → st.branches.lookup name = none →
      st.CreateBranch name =
        (Except.ok (), { st with branches := st.branches ++ [(name, h0)] })) ∧
    (∀ (env : WorkflowEnv) (r0 : Registry),
      ((CodeGenWorkflow env r0).branchAttempted = true →
        (CodeGenWorkflow env r0).branchNameUsed =
          some (env.branchEnvVar ++ "ai-" ++ env.runID)) ∧
      ((CodeGenWorkflow env r0).branchAttempted = true →
        (CodeGenWorkflow env r0).branchCreated = false →
        ∃ e, (CodeGenWorkflow env r0).result = Except.error e)) := by
  refine ⟨?_, ?_, ?_⟩
  · intro st name hex
    cases hh : st.head with
    | none =>
        exact ⟨goErrorf ("cannot create branch " ++ name ++
          ": HEAD reference not found"), by simp [GitState.CreateBranch, hh]⟩
    | some h0 =>
        cases hlk : st.branches.lookup name with
        | none => rw [hlk] at hex; simp at hex
        | some h1 =>
            exact ⟨goErrorf ("branch " ++ name ++ " already exists"),
              by simp [GitState.CreateBranch, hh, hlk]⟩
  · intro st name h0 hh hlk
    simp [GitState.CreateBranch, hh, hlk]
  · intro env r0
    cases hc : env.cloneResult with
    | error e =>
        constructor
        · intro hatt
          exfalso
          simp [CodeGenWorkflow, InitGitActivity, hc] at hatt
        · intro hatt
          exfalso
          simp [CodeGenWorkflow, InitGitActivity, hc] at hatt
    | ok st0 =>
        have hred : CodeGenWorkflow env r0 = codeGenAfterInit env
            (regRegister r0 env.workflowID
              { st0 with username := env.gitUsername,
                         password := env.gitPassword }) := by
          simp [CodeGenWorkflow, InitGitActivity, hc]
        rw [hred]
        constructor
        · intro hatt
          obtain ⟨rloop, hres, hbc, hpi, hpf, hbn⟩ :=
            codeGenAfterInit_finalize_fields env _ hatt
          exact hbn
        · intro hatt hnc
          obtain ⟨rloop, hres, hbc, hpi, hpf, hbn⟩ :=
            codeGenAfterInit_finalize_fields env _ hatt
          rw [hbc] at hnc
          obtain ⟨e, he⟩ := (finalizePhase_facts env rloop).2.2.2 hnc
          exact ⟨e, by rw [hres]; exact he⟩

/-- C7 witness: the collision makes CreateBranch error with the state
unchanged, and the run that attempted it fails; the attempted name is the
prefixed ai- name. -/
theorem c7_witness :
    ((stCollision.branches.lookup "ai-run1").isSome = true ∧
      (∃ e, stCollision.CreateBranch "ai-run1" =
        (Except.error e, stCollision)) ∧
      (CodeGenWorkflow envCollision []).branchAttempted = true ∧
      (CodeGenWorkflow envCollision []).branchCreated = false) ∧
    (CodeGenWorkflow envCollision []).branchNameUsed =
      some (envCollision.branchEnvVar ++ "ai-" ++ envCollision.runID) ∧
    ∃ e, (CodeGenWorkflow envCollision []).result = Except.error e :=
  ⟨⟨by decide,
    c7_branch_naming_and_collision_fatal.1 stCollision "ai-run1" (by decide),
    by decide, by decide⟩,
   (c7_branch_naming_and_collision_fatal.2.2 envCollision []).1 (by decide),
   (c7_branch_naming_and_collision_fatal.2.2 envCollision []).2 (by decide)
     (by decide)⟩

/-- C8: a commit attempt on a clean worktree returns the current head
hash without creating a commit object (the state is unchanged); and a
step whose generated change set is empty finishes without error, is
recorded as a no-op, leaves the session registry (and so the repository
state) untouched, and the loop proceeds to the remaining steps exactly as
if started there. -/
theorem c8_zero_change_step_is_noop :
    (∀ (st : GitState) (msg : String), st.isClean = true →
      st.Commit msg = (Except.ok st.RepoHeadHash, st)) ∧
    (∀ (env : WorkflowEnv) (total : Nat) (r : Registry) (stepNum : Nat)
        (step : String) (rest : List String) (st : GitState) (raw : String),
      regLookup r env.workflowID = some st →
      env.evalRaw stepNum = Except.ok raw → raw ≠ "" →
      env.genCode stepNum = Except.ok [] →
      (runStep env total r stepNum step).err = none ∧
      (runStep env total r stepNum step).noOp = true ∧
      (runStep env total r stepNum step).reg = r ∧
      (runSteps env total r stepNum (step :: rest)).err =
        (runSteps env total r (stepNum + 1) rest).err ∧
      (runSteps env total r stepNum (step :: rest)).reg =
        (runSteps env total r (stepNum + 1) rest).reg ∧
      (runSteps env total r stepNum (step :: rest)).noOpSteps =
        stepNum :: (runSteps env total r (stepNum + 1) rest).noOpSteps) := by
  constructor
  · intro st msg hclean
    simp [GitState.Commit, hclean]
  · intro env total r stepNum step rest st raw hlk he hraw hg
    have hlist : ListFilesGitActivity r env.workflowID =
        Except.ok st.ListFiles := by
      simp [ListFilesGitActivity, getServiceForWorkflow, hlk]
    obtain ⟨res, hres, _⟩ := evaluateRelevantFiles_subset raw st.ListFiles hraw
    have hread : ∃ rc, (if res = []
        then (Except.ok [] : Except GoError (List (String × String)))
        else ReadFilesGitActivity r env.workflowID res) = Except.ok rc := by
      by_cases hr : res = []
      · exact ⟨[], by simp [hr]⟩
      · refine ⟨res.filterMap (fun p =>
          (st.files.lookup p).map (fun c => (p, c))), ?_⟩
        simp [hr, ReadFilesGitActivity, getServiceForWorkflow, hlk]
    obtain ⟨rc, hrc⟩ := hread
    have hrs : runStep env total r stepNum step =
        { err := none, reg := r, noOp := true, snaps := [r, r, r, r] } := by
      simp [runStep, hlist, he, hres, hrc, hg]
    refine ⟨by rw [hrs], by rw [hrs], by rw [hrs], ?_, ?_, ?_⟩ <;>
      simp [runSteps, hrs]

/-- C8 witness: a clean-worktree commit at the concrete cloned state, and
the concrete no-op step of the one-step run. -/
theorem c8_witness :
    (witnessClonedState.isClean = true ∧
      witnessClonedState.Commit "msg" =
        (Except.ok witnessClonedState.RepoHeadHash, witnessClonedState)) ∧
    (regLookup [("wf1", witnessClonedState)] envNoOpStep.workflowID =
        some witnessClonedState ∧
      envNoOpStep.evalRaw 1 = Except.ok "NONE" ∧
      ("NONE" : String) ≠ "" ∧
      envNoOpStep.genCode 1 = Except.ok [] ∧
      ((runStep envNoOpStep 1 [("wf1", witnessClonedState)] 1
          "add docs").err = none ∧
        (runStep envNoOpStep 1 [("wf1", witnessClonedState)] 1
          "add docs").noOp = true ∧
        (runStep envNoOpStep 1 [("wf1", witnessClonedState)] 1
          "add docs").reg = [("wf1", witnessClonedState)] ∧
        (runSteps envNoOpStep 1 [("wf1", witnessClonedState)] 1
          ["add docs"]).err =
          (runSteps envNoOpStep 1 [("wf1", witnessClonedState)] 2 []).err ∧
        (runSteps envNoOpStep 1 [("wf1", witnessClonedState)] 1
          ["add docs"]).reg =
          (runSteps envNoOpStep 1 [("wf1", witnessClonedState)] 2 []).reg ∧
        (runSteps envNoOpStep 1 [("wf1", witnessClonedState)] 1
          ["add docs"]).noOpSteps =
          1 :: (runSteps envNoOpStep 1 [("wf1", witnessClonedState)] 2
            []).noOpSteps)) :=
  ⟨⟨by decide,
    c8_zero_change_step_is_noop.1 witnessClonedState "msg" (by decide)⟩,
   ⟨by decide, rfl, by decide, rfl,
    c8_zero_change_step_is_noop.2 envNoOpStep 1
      [("wf1", witnessClonedState)] 1 "add docs" [] witnessClonedState
      "NONE" (by decide) rfl (by decide) rfl⟩⟩
